import Mathlib

/-!
Verification of the SCPI_Control instrument-communication layer
(src/instruments.py) against its natural-language specification.

The Python source is shallowly embedded: real-valued instrument
quantities become `ℚ`, byte strings become `List ℕ` (each entry a byte
value 0..255), Python text becomes `String`/`List Char`, and fallible
code returns `Except PyErr`.  Side-effecting writes to the device are
made explicit: every driver operation returns the list of commands it
wrote alongside its result.  Wall-clock time in the transport layer is
modelled by an explicit rational clock advanced by the environment.
-/

set_option linter.unnecessarySeqFocus false
set_option linter.unreachableTactic false
set_option linter.unusedTactic false

deriving instance DecidableEq for Except

/-- Python exception kinds that can escape the functions under study.
`valueError` covers `ValueError` (failed range checks, failed `int()` /
`float()` conversions, and tuple-unpacking mismatches), `structError`
covers `struct.error`, `indexError` covers `IndexError`, `timeoutError`
covers the `TimeoutError` raised by the transport reads, `osError`
covers an `OSError` other than `EAGAIN`, and `unicodeError` covers
`UnicodeDecodeError` from `bytes.decode('ascii')`. -/
inductive PyErr where
  | valueError
  | structError
  | indexError
  | timeoutError
  | osError
  | unicodeError
  deriving DecidableEq

/-- Split a list of characters at its leading run of ASCII digits,
returning the digit values and the remaining characters. -/
def takeDigits : List Char → List ℕ × List Char
  | [] => ([], [])
  | c :: cs =>
    if c.isDigit then
      match takeDigits cs with
      | (ds, r) => ((c.toNat - 48) :: ds, r)
    else
      ([], c :: cs)

/-- Numeric value of a big-endian list of decimal digit values. -/
def natOfDigits (ds : List ℕ) : ℕ :=
  ds.foldl (fun a d => 10 * a + d) 0

/-- Modelled from Python's builtin `float()` restricted to finite plain
decimal and scientific literals (optional sign, integer part, optional
fraction, optional exponent).  The special tokens `nan`/`inf`/
`infinity`, which `float()` also accepts, are modelled by
`pyFloatFull`; embedded underscores and surrounding whitespace remain
outside the modelled fragment. -/
def pyFloatChars (cs : List Char) : Option ℚ :=
  let sp : ℚ × List Char :=
    match cs with
    | '-' :: r => (-1, r)
    | '+' :: r => (1, r)
    | r => (1, r)
  let ipp := takeDigits sp.2
  let fpp : List ℕ × List Char :=
    match ipp.2 with
    | '.' :: r => takeDigits r
    | r => ([], r)
  if ipp.1.isEmpty ∧ fpp.1.isEmpty then none
  else
    let mant : ℚ :=
      sp.1 * ((natOfDigits ipp.1 : ℚ) + (natOfDigits fpp.1 : ℚ) / (10 : ℚ) ^ fpp.1.length)
    match fpp.2 with
    | [] => some mant
    | c :: r =>
      if c = 'e' ∨ c = 'E' then
        let ep : Bool × List Char :=
          match r with
          | '-' :: r2 => (false, r2)
          | '+' :: r2 => (true, r2)
          | r2 => (true, r2)
        let edp := takeDigits ep.2
        if edp.1.isEmpty ∨ ¬ edp.2.isEmpty then none
        else
          some (mant * if ep.1 then (10 : ℚ) ^ natOfDigits edp.1
                       else ((10 : ℚ) ^ natOfDigits edp.1)⁻¹)
      else none

/-- `float()` on a `String`. -/
def pyFloat (s : String) : Option ℚ :=
  pyFloatChars s.data

/-- Modelled from Python's builtin `int()` restricted to plain
optionally-signed decimal literals. -/
def pyIntChars (cs : List Char) : Option ℤ :=
  let sp : ℤ × List Char :=
    match cs with
    | '-' :: r => (-1, r)
    | '+' :: r => (1, r)
    | r => (1, r)
  let dp := takeDigits sp.2
  if dp.1.isEmpty ∨ ¬ dp.2.isEmpty then none
  else some (sp.1 * (natOfDigits dp.1 : ℤ))

/-- `int()` on a `String`. -/
def pyInt (s : String) : Option ℤ :=
  pyIntChars s.data

example : pyFloat "9.9e37" = some (99 * 10 ^ 36) := by
  simp +decide [pyFloat, pyFloatChars, takeDigits, natOfDigits] <;> norm_num
example : pyFloat "1.234e-09" = some (1234 / 10 ^ 12) := by
  simp +decide [pyFloat, pyFloatChars, takeDigits, natOfDigits] <;> norm_num
example : pyFloat "0.015" = some (15 / 1000) := by
  simp +decide [pyFloat, pyFloatChars, takeDigits, natOfDigits] <;> norm_num
example : pyFloat "" = none := by
  simp +decide [pyFloat, pyFloatChars, takeDigits, natOfDigits] <;> norm_num
example : pyFloat "abc" = none := by
  simp +decide [pyFloat, pyFloatChars, takeDigits, natOfDigits] <;> norm_num
example : pyFloat "-1.5" = some (-(3 / 2)) := by
  simp +decide [pyFloat, pyFloatChars, takeDigits, natOfDigits] <;> norm_num
example : pyInt "0" = some 0 := by
  simp +decide [pyInt, pyIntChars, takeDigits, natOfDigits] <;> norm_num
example : pyInt "-42" = some (-42) := by
  simp +decide [pyInt, pyIntChars, takeDigits, natOfDigits] <;> norm_num
example : pyInt "4x" = none := by
  simp +decide [pyInt, pyIntChars, takeDigits, natOfDigits] <;> norm_num

/-- Outcome of one `os.read` attempt on the usbtmc character device, as
chosen by the environment: a returned chunk of bytes (possibly empty),
an `OSError` with `errno == EAGAIN`, or any other `OSError`. -/
inductive ReadEv where
  | chunk (bytes : List ℕ)
  | eagain
  | fail
  deriving DecidableEq

/-- The fixed `time.sleep(0.01)` poll interval of `USBTMC.read` and
`USBTMC.read_raw` (src/instruments.py lines 37, 40, 58, 61), in
seconds. -/
def pollInterval : ℚ := 1 / 100

/-- Modelled from Python's `bytes.decode('ascii')`: fails on any byte
outside 0..127, otherwise relabels each byte as the character with the
same code point. -/
def pyDecodeAscii (bs : List ℕ) : Except PyErr (List Char) :=
  if bs.all (fun b => b < 128) then .ok (bs.map Char.ofNat)
  else .error .unicodeError

/-- ASCII whitespace recognised by Python's `str.strip()`. -/
def isPySpace (c : Char) : Bool :=
  c == ' ' || c == Char.ofNat 9 || c == Char.ofNat 10 ||
    c == Char.ofNat 13 || c == Char.ofNat 11 || c == Char.ofNat 12

/-- Modelled from Python's `str.strip()` (ASCII fragment): drop leading
and trailing whitespace. -/
def pyStrip (cs : List Char) : List Char :=
  ((cs.dropWhile isPySpace).reverse.dropWhile isPySpace).reverse

namespace USBTMC

/-- The retry loop of `USBTMC.read` (src/instruments.py lines 22-45).
`endTime` is `end_time = time.time() + self.timeout`, `now` the current
wall-clock value of `time.time()`, `data` the accumulated buffer, and
each trace entry is the outcome of the next `os.read` call paired with
the wall-clock duration that call took.  Each non-breaking iteration
additionally sleeps `pollInterval`.  The result pairs the loop outcome
(the raw `data` buffer, or the raised exception) with the wall-clock
time at which `read` returns or raises; `none` means the supplied trace
ended before the loop did. -/
def readAux (endTime : ℚ) : List (ReadEv × ℚ) → ℚ → List ℕ →
    Option (Except PyErr (List ℕ) × ℚ)
  | evs, now, data =>
    if now < endTime then
      match evs with
      | [] => none
      | (ev, d) :: rest =>
        match ev with
        | .chunk c =>
          if c.isEmpty then readAux endTime rest (now + d + pollInterval) data
          else if (10 : ℕ) ∈ c then some (.ok (data ++ c), now + d)
          else readAux endTime rest (now + d + pollInterval) (data ++ c)
        | .eagain => readAux endTime rest (now + d + pollInterval) data
        | .fail => some (.error .osError, now + d)
    else
      some (if data.isEmpty then (.error .timeoutError, now) else (.ok data, now))

/-- `USBTMC.read` (src/instruments.py lines 22-45): run the retry loop
from wall-clock time `0` with deadline `timeout`, then apply
`data.decode('ascii').strip()` to a successful buffer. -/
def read (timeout : ℚ) (trace : List (ReadEv × ℚ)) :
    Option (Except PyErr (List Char) × ℚ) :=
  (readAux timeout trace 0 []).map
    (fun p => (p.1.bind (fun bs => (pyDecodeAscii bs).map pyStrip), p.2))

/-- The retry loop of `USBTMC.read_raw` (src/instruments.py lines
47-63): same deadline discipline as `readAux`, but the first non-empty
chunk is returned immediately and nothing accumulates. -/
def readRawAux (endTime : ℚ) : List (ReadEv × ℚ) → ℚ →
    Option (Except PyErr (List ℕ) × ℚ)
  | evs, now =>
    if now < endTime then
      match evs with
      | [] => none
      | (ev, d) :: rest =>
        match ev with
        | .chunk c =>
          if c.isEmpty then readRawAux endTime rest (now + d + pollInterval)
          else some (.ok c, now + d)
        | .eagain => readRawAux endTime rest (now + d + pollInterval)
        | .fail => some (.error .osError, now + d)
    else
      some (.error .timeoutError, now)

/-- `USBTMC.read_raw` run from wall-clock time `0`. -/
def read_raw (timeout : ℚ) (trace : List (ReadEv × ℚ)) :
    Option (Except PyErr (List ℕ) × ℚ) :=
  readRawAux timeout trace 0

end USBTMC

example : USBTMC.read (1 / 100) [(.chunk [97, 98, 99], 0)] =
    some (.ok ['a', 'b', 'c'], 1 / 100) := by
  norm_num [USBTMC.read, USBTMC.readAux, pollInterval, pyDecodeAscii, pyStrip,
    isPySpace, Except.bind, Except.map] <;> decide
example : USBTMC.read 2 [(.chunk [10], 5)] = some (.ok [], 5) := by
  norm_num [USBTMC.read, USBTMC.readAux, pollInterval, pyDecodeAscii, pyStrip,
    isPySpace, Except.bind, Except.map] <;> decide
example : USBTMC.read 2 [(.chunk [97, 10], 0)] = some (.ok ['a'], 0) := by
  norm_num [USBTMC.read, USBTMC.readAux, pollInterval, pyDecodeAscii, pyStrip,
    isPySpace, Except.bind, Except.map] <;> decide
example : USBTMC.read_raw 2 [(.eagain, 0), (.chunk [7], 1)] =
    some (.ok [7], 0 + 0 + pollInterval + 1) := by
  norm_num [USBTMC.read_raw, USBTMC.readRawAux, pollInterval]

/-- One SCPI command written to the device.  Each constructor records
the command name and the interpolated arguments of the corresponding
`self.write(f'...')` call in src/instruments.py; the textual rendering
of numbers into the command string is abstracted. -/
inductive Cmd where
  | freq (hz : ℚ)
  | levVolt (v : ℚ)
  | fetchQuery
  | selectCh (channel : ℤ) (state : Bool)
  | chScale (channel : ℤ) (scale : ℚ)
  | chPosition (channel : ℤ) (position : ℚ)
  | chCoupling (channel : ℤ) (coupling : String)
  | horScale (scale : ℚ)
  | horPosition (position : ℚ)
  | trigTypeEdge
  | trigEdgeSource (source : String)
  | trigLevel (source : String) (level : ℚ)
  | trigEdgeSlope (slope : String)
  | immedType (meas : String)
  | immedSource (channel : ℤ)
  | immedValueQuery
  deriving DecidableEq

namespace BK894

/-- `BK894.set_frequency` (src/instruments.py lines 101-105): range
check `100 <= freq_hz <= 200000`, raising `ValueError` (the spec's
`InvalidParameter`) before any write; otherwise one `:FREQ` command.
The second component is the list of commands written. -/
def set_frequency (freq_hz : ℚ) : Except PyErr Unit × List Cmd :=
  if ¬ (100 ≤ freq_hz ∧ freq_hz ≤ 200000) then (.error .valueError, [])
  else (.ok (), [.freq freq_hz])

/-- `BK894.set_voltage` (src/instruments.py lines 107-111): range check
`0.01 <= voltage <= 2.0` before any write; otherwise one `:LEV:VOLT`
command. -/
def set_voltage (voltage : ℚ) : Except PyErr Unit × List Cmd :=
  if ¬ (1 / 100 ≤ voltage ∧ voltage ≤ 2) then (.error .valueError, [])
  else (.ok (), [.levVolt voltage])

end BK894

/-- Modelled from Python's `str.split(',')`: split at every comma; `n`
commas yield exactly `n + 1` fields. -/
def splitComma : List Char → List (List Char)
  | [] => [[]]
  | ',' :: cs => [] :: splitComma cs
  | c :: cs =>
    match splitComma cs with
    | f :: rest => (c :: f) :: rest
    | [] => [[c]]

namespace BK894

/-- `BK894.measure` (src/instruments.py lines 113-120).  `resp` is the
outcome of `self.ask(':FETC?')` (the stripped response text, or the
exception the transport raised).  The response is unpacked as exactly
three comma-separated fields — any other field count raises
`ValueError` (the spec's `ProtocolError`) — then converted by
`float`, `float`, `int`.  The command list records the single query
written by `ask`. -/
def measure (resp : Except PyErr String) : Except PyErr (ℚ × ℚ × ℤ) × List Cmd :=
  (match resp with
   | .error e => .error e
   | .ok result =>
     match splitComma result.data with
     | [primary, secondary, status] =>
       match pyFloatChars primary, pyFloatChars secondary,
           pyIntChars status with
       | some p, some s, some st => .ok (p, s, st)
       | _, _, _ => .error .valueError
     | _ => .error .valueError,
   [.fetchQuery])

end BK894

example : BK894.set_frequency 1000 = (.ok (), [.freq 1000]) := by
  norm_num [BK894.set_frequency]
example : BK894.set_frequency 50 = (.error .valueError, []) := by
  norm_num [BK894.set_frequency]
set_option maxHeartbeats 1600000 in
example : (BK894.measure (.ok "1.234e-09,0.015,0")).1 =
    .ok (1234 / 10 ^ 12, 15 / 1000, 0) := by
  simp +decide [BK894.measure, splitComma, pyFloatChars, pyIntChars, takeDigits,
    natOfDigits] <;> norm_num
example : (BK894.measure (.ok "1.0,2.0")).1 = .error .valueError := by
  simp +decide [BK894.measure, splitComma, pyFloatChars, pyIntChars, takeDigits,
    natOfDigits] <;> norm_num

namespace TekMSO24

/-- `TekMSO24.set_channel_enable` (src/instruments.py lines 151-154):
one `SELECT:CH<n>` command, unconditionally. -/
def set_channel_enable (channel : ℤ) (enable : Bool) :
    Except PyErr Unit × List Cmd :=
  (.ok (), [.selectCh channel enable])

/-- `TekMSO24.set_vertical` (src/instruments.py lines 156-166): three
commands (scale, position, coupling), unconditionally. -/
def set_vertical (channel : ℤ) (scale position : ℚ) (coupling : String) :
    Except PyErr Unit × List Cmd :=
  (.ok (), [.chScale channel scale, .chPosition channel position,
    .chCoupling channel coupling])

/-- `TekMSO24.set_horizontal` (src/instruments.py lines 168-175): two
commands, unconditionally. -/
def set_horizontal (scale position : ℚ) : Except PyErr Unit × List Cmd :=
  (.ok (), [.horScale scale, .horPosition position])

/-- `TekMSO24.set_trigger_edge` (src/instruments.py lines 178-188):
four commands, unconditionally. -/
def set_trigger_edge (source : String) (level : ℚ) (slope : String) :
    Except PyErr Unit × List Cmd :=
  (.ok (), [.trigTypeEdge, .trigEdgeSource source, .trigLevel source level,
    .trigEdgeSlope slope])

/-- The `try/except` body of `TekMSO24.measure` (src/instruments.py
lines 216-223) applied to the response text of the
`MEASUREMENT:IMMED:VALUE?` query: a failed `float()` conversion is
caught and yields `None`; a parsed value of magnitude above the `1e30`
sentinel yields `None`; otherwise the value itself. -/
def parseValue (result : String) : Option ℚ :=
  match pyFloat result with
  | none => none
  | some val => if (10 : ℚ) ^ 30 < |val| then none else some val

/-- `TekMSO24.measure` (src/instruments.py lines 205-223).  `resp` is
the outcome of `self.ask('MEASUREMENT:IMMED:VALUE?')`; an exception
raised by `ask` (e.g. `TimeoutError`) is outside the `try` block and
propagates.  The command list records the two configuration writes and
the value query. -/
def measure (meas_type : String) (channel : ℤ)
    (resp : Except PyErr String) : Except PyErr (Option ℚ) × List Cmd :=
  (match resp with
   | .error e => .error e
   | .ok result => .ok (parseValue result),
   [.immedType meas_type, .immedSource channel, .immedValueQuery])

/-- The fixed measurement list of `TekMSO24.get_all_measurements`
(src/instruments.py line 228), in iteration order. -/
def measOrder : List String := ["FREQ", "PERIOD", "MEAN", "PK2PK", "RMS", "AMPLITUDE"]

/-- The loop of `TekMSO24.get_all_measurements`: one `measure` per
entry of `ms`; an exception propagating out of `measure` aborts the
loop.  `resp` gives the device's response to the value query issued for
each measurement type.  The Python dict (insertion-ordered) is modelled
as an association list in insertion order, keyed by `meas.lower()`. -/
def gatherMeasurements (channel : ℤ) (resp : String → Except PyErr String) :
    List String → Except PyErr (List (String × Option ℚ))
  | [] => .ok []
  | m :: ms =>
    match (measure m channel (resp m)).1 with
    | .error e => .error e
    | .ok v =>
      match gatherMeasurements channel resp ms with
      | .error e => .error e
      | .ok rest => .ok ((m.toLower, v) :: rest)

/-- `TekMSO24.get_all_measurements` (src/instruments.py lines
225-230). -/
def get_all_measurements (channel : ℤ)
    (resp : String → Except PyErr String) :
    Except PyErr (List (String × Option ℚ)) :=
  gatherMeasurements channel resp measOrder

end TekMSO24

example : TekMSO24.parseValue "9.9e37" = none := by
  simp +decide [TekMSO24.parseValue, pyFloat, pyFloatChars, takeDigits,
    natOfDigits] <;> norm_num
example : TekMSO24.parseValue "2.5" = some (5 / 2) := by
  simp +decide [TekMSO24.parseValue, pyFloat, pyFloatChars, takeDigits,
    natOfDigits] <;> norm_num [abs_le]
example : TekMSO24.parseValue "" = none := by
  simp +decide [TekMSO24.parseValue, pyFloat, pyFloatChars, takeDigits,
    natOfDigits] <;> norm_num
example : TekMSO24.get_all_measurements 1
    (fun m => if m = "PERIOD" then .error .timeoutError else .ok "1") =
    .error .timeoutError := by
  simp +decide [TekMSO24.get_all_measurements, TekMSO24.gatherMeasurements,
    TekMSO24.measOrder, TekMSO24.measure, TekMSO24.parseValue, pyFloat,
    pyFloatChars, takeDigits, natOfDigits] <;> norm_num

/-- A Python float value as produced by `float()` on an instrument
response: NaN, a signed infinity, or a finite value (modelled
exactly as a rational). -/
inductive PyFloat where
  | nan
  | inf (neg : Bool)
  | finite (q : ℚ)
  deriving DecidableEq

/-- ASCII lower-casing, as used by `float()`'s case-insensitive
recognition of its special tokens. -/
def lowerAscii (c : Char) : Char :=
  if 'A' ≤ c ∧ c ≤ 'Z' then Char.ofNat (c.toNat + 32) else c

/-- Modelled from Python's builtin `float()` including its special
tokens: after an optional sign, the case-insensitive words `nan`,
`inf` and `infinity` parse to NaN and signed infinity respectively;
anything else parses via the finite fragment `pyFloatChars`. -/
def pyFloatFull (cs : List Char) : Option PyFloat :=
  let sp : Bool × List Char :=
    match cs with
    | '-' :: r => (true, r)
    | '+' :: r => (false, r)
    | r => (false, r)
  let low := sp.2.map lowerAscii
  if low = ['n', 'a', 'n'] then some .nan
  else if low = ['i', 'n', 'f'] ∨ low = ['i', 'n', 'f', 'i', 'n', 'i', 't', 'y'] then
    some (.inf sp.1)
  else (pyFloatChars cs).map PyFloat.finite

/-- The test `abs(val) > 1e30` of `TekMSO24.measure` under IEEE-754
semantics: `False` for NaN (every comparison with NaN is false),
`True` for either infinity, and the exact comparison for finite
values. -/
def absGtSentinel : PyFloat → Bool
  | .nan => false
  | .inf _ => true
  | .finite q => decide ((10 : ℚ) ^ 30 < |q|)

namespace TekMSO24

/-- The `try/except` body of `TekMSO24.measure` (src/instruments.py
lines 216-223) under the full `float()` model `pyFloatFull`: a failed
conversion is caught and yields `None`; a parsed value passing the
`abs(val) > 1e30` test yields `None`; otherwise the parsed value
itself — which for the response `"nan"` is NaN, since
`abs(nan) > 1e30` is false. -/
def parseValueFull (result : String) : Option PyFloat :=
  match pyFloatFull result.data with
  | none => none
  | some val => if absGtSentinel val then none else some val

/-- `TekMSO24.measure` (src/instruments.py lines 205-223) under the
full `float()` model; otherwise identical to `measure`. -/
def measureFull (meas_type : String) (channel : ℤ)
    (resp : Except PyErr String) : Except PyErr (Option PyFloat) × List Cmd :=
  (match resp with
   | .error e => .error e
   | .ok result => .ok (parseValueFull result),
   [.immedType meas_type, .immedSource channel, .immedValueQuery])

end TekMSO24

example : TekMSO24.parseValueFull "nan" = some .nan := by decide
example : TekMSO24.parseValueFull "-nan" = some .nan := by decide
example : TekMSO24.parseValueFull "inf" = none := by decide
example : TekMSO24.parseValueFull "-Infinity" = none := by decide
example : TekMSO24.parseValueFull "" = none := by decide
example : pyFloatFull "2.5".data = some (.finite (5 / 2)) := by
  simp +decide [pyFloatFull, lowerAscii, pyFloatChars, takeDigits,
    natOfDigits] <;> norm_num
example : TekMSO24.parseValueFull "9.9e37" = none := by
  simp +decide [TekMSO24.parseValueFull, pyFloatFull, lowerAscii, absGtSentinel,
    pyFloatChars, takeDigits, natOfDigits] <;> norm_num

/-- A signed 16-bit big-endian sample from two bytes, as produced by
`struct.unpack('>...h', ...)`. -/
def int16OfBytes (hi lo : ℕ) : ℤ :=
  let u := hi * 256 + lo
  if u < 32768 then (u : ℤ) else (u : ℤ) - 65536

/-- `struct.unpack(f'>{n}h', data)` with `n = data.length / 2`:
consecutive byte pairs decoded as signed 16-bit big-endian integers.
(The caller separately enforces the exact-length requirement of
`struct.unpack`, i.e. that the byte count is even.) -/
def unpackBE16 : List ℕ → List ℤ
  | hi :: lo :: rest => int16OfBytes hi lo :: unpackBE16 rest
  | _ => []

namespace TekMSO24

/-- The waveform preamble scalars queried one by one by
`TekMSO24.get_waveform` (src/instruments.py lines 243-249), already
converted by `int()`/`float()`. -/
structure Preamble where
  nr_pt : ℤ
  xincr : ℚ
  pt_off : ℤ
  xzero : ℚ
  ymult : ℚ
  yoff : ℚ
  yzero : ℚ
  deriving DecidableEq

/-- The dict returned by `TekMSO24.get_waveform`: keys `'t'`, `'v'`,
`'dt'`, `'npts'`. -/
structure Waveform where
  t : List ℚ
  v : List ℚ
  dt : ℚ
  npts : ℕ
  deriving DecidableEq

/-- The decode stage of `TekMSO24.get_waveform` (src/instruments.py
lines 256-271), applied to the raw `CURVE?` response `raw_data` (a byte
string) and the previously queried preamble `p`.
`header_len = 2 + int(chr(raw_data[1]))` raises `IndexError` when the
response has fewer than two bytes and `ValueError` when byte 1 is not
an ASCII digit; `data_bytes = raw_data[header_len:-1]`;
`struct.unpack` raises `struct.error` when `data_bytes` has odd length;
voltages are `(s - yoff) * ymult + yzero` and times
`xzero + i * xincr`. -/
def get_waveform (p : Preamble) (raw_data : List ℕ) : Except PyErr Waveform :=
  match raw_data.drop 1 with
  | [] => .error .indexError
  | b :: _ =>
    if 48 ≤ b ∧ b ≤ 57 then
      let header_len := 2 + (b - 48)
      let data_bytes := (raw_data.drop header_len).dropLast
      if data_bytes.length % 2 = 0 then
        let voltages := (unpackBE16 data_bytes).map
          (fun s : ℤ => ((s : ℚ) - p.yoff) * p.ymult + p.yzero)
        let times := (List.range voltages.length).map
          (fun i : ℕ => p.xzero + (i : ℚ) * p.xincr)
        .ok ⟨times, voltages, p.xincr, voltages.length⟩
      else .error .structError
    else .error .valueError

end TekMSO24

example :
    TekMSO24.get_waveform ⟨4, 1 / 1000000, 0, 0, 1 / 100, 0, 0⟩
      ([35, 49, 56] ++ [0, 100, 255, 156, 0, 0, 127, 255] ++ [10]) =
    .ok ⟨[0, 1 / 1000000, 2 / 1000000, 3 / 1000000],
      [1, -1, 0, 32767 / 100], 1 / 1000000, 4⟩ := by
  norm_num [TekMSO24.get_waveform, unpackBE16, int16OfBytes, List.range_succ]

example :
    TekMSO24.get_waveform ⟨4, 1 / 1000000, 0, 0, 1 / 100, 0, 0⟩
      ([88, 49, 56] ++ [0, 100, 255, 156, 0, 0] ++ [10]) =
    .ok ⟨[0, 1 / 1000000, 2 / 1000000], [1, -1, 0], 1 / 1000000, 3⟩ := by
  norm_num [TekMSO24.get_waveform, unpackBE16, int16OfBytes, List.range_succ]

example :
    TekMSO24.get_waveform ⟨4, 1 / 1000000, 0, 0, 1 / 100, 0, 0⟩ [35, 65, 9, 9] =
    .error .valueError := by
  norm_num [TekMSO24.get_waveform]

example :
    TekMSO24.get_waveform ⟨4, 1 / 1000000, 0, 0, 1 / 100, 0, 0⟩
      ([35, 49, 56] ++ [0, 100, 255] ++ [10]) =
    .error .structError := by
  norm_num [TekMSO24.get_waveform]

/-- Claim C3: for every frequency in [100, 200000] `set_frequency`
succeeds and issues exactly one command, and for every voltage in
[0.01, 2.0] `set_voltage` succeeds and issues exactly one command; for
every value outside its range the operation fails with
`InvalidParameter` (realised as Python's `ValueError` raised at the
range check) and issues zero commands — the rejection happens before
any protocol traffic. -/
theorem lcr_range_validation (x : ℚ) :
    ((100 ≤ x ∧ x ≤ 200000) →
      BK894.set_frequency x = (.ok (), [.freq x])) ∧
    (¬ (100 ≤ x ∧ x ≤ 200000) →
      BK894.set_frequency x = (.error .valueError, [])) ∧
    ((1 / 100 ≤ x ∧ x ≤ 2) →
      BK894.set_voltage x = (.ok (), [.levVolt x])) ∧
    (¬ (1 / 100 ≤ x ∧ x ≤ 2) →
      BK894.set_voltage x = (.error .valueError, [])) := by
  exact ⟨fun h => by rw [BK894.set_frequency, if_neg (not_not_intro h)],
    fun h => by rw [BK894.set_frequency, if_pos h],
    fun h => by rw [BK894.set_voltage, if_neg (not_not_intro h)],
    fun h => by rw [BK894.set_voltage, if_pos h]⟩

/-- Witness for `lcr_range_validation` at the in-range inputs 1000 Hz
and 1 V and the out-of-range inputs 50 Hz and 5 V. -/
theorem lcr_range_validation_witness :
    BK894.set_frequency 1000 = (.ok (), [.freq 1000]) ∧
    BK894.set_frequency 50 = (.error .valueError, []) ∧
    BK894.set_voltage 1 = (.ok (), [.levVolt 1]) ∧
    BK894.set_voltage 5 = (.error .valueError, []) :=
  ⟨(lcr_range_validation 1000).1 (by norm_num),
   (lcr_range_validation 50).2.1 (by norm_num),
   (lcr_range_validation 1).2.2.1 (by norm_num),
   (lcr_range_validation 5).2.2.2 (by norm_num)⟩

/-- Claim C5 counterexample: `set_channel_enable` called with channel
index 5 (outside {1, 2, 3, 4}) does not fail with `InvalidParameter` —
it succeeds and issues the `SELECT:CH5` command; the code performs no
channel-range check at all. -/
theorem scope_channel_not_validated :
    (TekMSO24.set_channel_enable 5 true).1 = .ok () ∧
    (TekMSO24.set_channel_enable 5 true).2 = [.selectCh 5 true] ∧
    (TekMSO24.set_channel_enable 5 true).1 ≠ .error .valueError :=
  ⟨rfl, rfl, by decide⟩

/-- Claim C5 as amended: none of the oscilloscope configuration
operations validates its channel index (or any other argument); each
unconditionally succeeds and issues its fixed command sequence for
every channel value. -/
theorem scope_config_unconditional (channel : ℤ) (enable : Bool)
    (scale position level hs hp : ℚ) (coupling source slope : String) :
    TekMSO24.set_channel_enable channel enable =
      (.ok (), [.selectCh channel enable]) ∧
    TekMSO24.set_vertical channel scale position coupling =
      (.ok (), [.chScale channel scale, .chPosition channel position,
        .chCoupling channel coupling]) ∧
    TekMSO24.set_horizontal hs hp = (.ok (), [.horScale hs, .horPosition hp]) ∧
    TekMSO24.set_trigger_edge source level slope =
      (.ok (), [.trigTypeEdge, .trigEdgeSource source,
        .trigLevel source level, .trigEdgeSlope slope]) :=
  ⟨rfl, rfl, rfl, rfl⟩

/-- Claim C6: a value-query response parsing to a magnitude above the
1e30 sentinel (in particular `"9.9e37"`) makes the scalar measurement
return the absent value `None` — not a number and not an error — and a
response parsing to a value within the threshold is returned as that
number. -/
theorem measure_sentinel_threshold :
    (∀ (mt : String) (ch : ℤ) (s : String) (v : ℚ), pyFloat s = some v →
      (10 : ℚ) ^ 30 < |v| →
      (TekMSO24.measure mt ch (.ok s)).1 = .ok none) ∧
    (∀ (mt : String) (ch : ℤ) (s : String) (v : ℚ), pyFloat s = some v →
      |v| ≤ (10 : ℚ) ^ 30 →
      (TekMSO24.measure mt ch (.ok s)).1 = .ok (some v)) ∧
    (TekMSO24.measure "FREQ" 1 (.ok "9.9e37")).1 = .ok none := by
  refine ⟨fun mt ch s v hp hv => ?_, fun mt ch s v hp hv => ?_, ?_⟩
  · simp [TekMSO24.measure, TekMSO24.parseValue, hp, hv]
  · simp [TekMSO24.measure, TekMSO24.parseValue, hp, not_lt.mpr hv]
  · simp +decide [TekMSO24.measure, TekMSO24.parseValue, pyFloat,
      pyFloatChars, takeDigits, natOfDigits] <;> norm_num

/-- Witness for `measure_sentinel_threshold` at the response
`"9.9e37"`, which parses to 9.9e37 = 99e36 > 1e30. -/
theorem measure_sentinel_threshold_witness :
    pyFloat "9.9e37" = some (99 * 10 ^ 36) ∧
    (10 : ℚ) ^ 30 < |(99 * 10 ^ 36 : ℚ)| ∧
    (TekMSO24.measure "FREQ" 1 (.ok "9.9e37")).1 = .ok none := by
  have h1 : pyFloat "9.9e37" = some (99 * 10 ^ 36) := by
    simp +decide [pyFloat, pyFloatChars, takeDigits, natOfDigits] <;> norm_num
  have h2 : (10 : ℚ) ^ 30 < |(99 * 10 ^ 36 : ℚ)| := by
    rw [abs_of_pos (by norm_num)]; norm_num
  exact ⟨h1, h2, measure_sentinel_threshold.1 "FREQ" 1 "9.9e37" _ h1 h2⟩

/-- Device response map used to exhibit the abort behaviour of
`get_all_measurements`: the `PERIOD` value query times out; every other
query answers `"1"`. -/
def cexResp : String → Except PyErr String :=
  fun m => if m = "PERIOD" then .error .timeoutError else .ok "1"

/-- Claim C7 counterexample: with the `PERIOD` value query timing out
and every other query answering `"1"` (which parses to the value 1),
`get_all_measurements` aborts with the `TimeoutError` instead of
producing the remaining entries — the failure of one measurement does
abort the others, because the `ask` call sits outside the
`try/except` of `measure`. -/
theorem measurements_abort_on_timeout :
    TekMSO24.get_all_measurements 1 cexResp = .error .timeoutError ∧
    cexResp "MEAN" = .ok "1" ∧ TekMSO24.parseValue "1" = some 1 := by
  refine ⟨?_, by decide, ?_⟩
  · simp +decide [TekMSO24.get_all_measurements, TekMSO24.gatherMeasurements,
      TekMSO24.measOrder, TekMSO24.measure, cexResp, TekMSO24.parseValue,
      pyFloat, pyFloatChars, takeDigits, natOfDigits] <;> norm_num
  · simp +decide [TekMSO24.parseValue, pyFloat, pyFloatChars, takeDigits,
      natOfDigits] <;> norm_num

/-- Claim C7 as amended: `get_all_measurements` queries exactly the
fixed set {FREQ, PERIOD, MEAN, PK2PK, RMS, AMPLITUDE} in that order,
and when every value query yields a response string the result has one
entry per measurement, each computed independently from its own
response (an unparseable or sentinel response yields an absent entry
without affecting the others); only a transport-level exception aborts
the remaining measurements. -/
theorem measurements_independent_when_ok (channel : ℤ)
    (resp : String → Except PyErr String) (s : String → String)
    (h : ∀ m ∈ TekMSO24.measOrder, resp m = .ok (s m)) :
    TekMSO24.get_all_measurements channel resp =
      .ok (TekMSO24.measOrder.map
        (fun m => (m.toLower, TekMSO24.parseValue (s m)))) := by
  have key : ∀ ms : List String, (∀ m ∈ ms, resp m = .ok (s m)) →
      TekMSO24.gatherMeasurements channel resp ms =
        .ok (ms.map fun m => (m.toLower, TekMSO24.parseValue (s m))) := by
    intro ms
    induction ms with
    | nil => intro _; rfl
    | cons m rest ih =>
      intro hm
      have h1 : resp m = .ok (s m) := hm m (List.mem_cons_self m rest)
      have h2 := ih fun x hx => hm x (List.mem_cons_of_mem m hx)
      simp [TekMSO24.gatherMeasurements, TekMSO24.measure, h1, h2]
  exact key _ h

/-- Witness for `measurements_independent_when_ok`: every query answers
`"1"`, and the result is the full six-entry mapping in order. -/
theorem measurements_independent_when_ok_witness :
    TekMSO24.get_all_measurements 1 (fun _ => .ok "1") =
      .ok (TekMSO24.measOrder.map
        (fun m => (m.toLower, TekMSO24.parseValue "1"))) :=
  measurements_independent_when_ok 1 (fun _ => .ok "1") (fun _ => "1")
    (fun _ _ => rfl)

/-- Claim C8: the LCR `measure()` issues exactly one query; the canned
response `"1.234e-09,0.015,0"` parses to primary 1.234e-9, secondary
0.015, status 0; every response of exactly three comma-separated
fields (two reals and an integer) yields that triple; and every
response not consisting of exactly three comma-separated fields fails
with `ProtocolError` (realised as Python's `ValueError` raised by the
three-way unpacking). -/
theorem lcr_measure_parse :
    (BK894.measure (.ok "1.234e-09,0.015,0") =
      (.ok (1234 / 10 ^ 12, 15 / 1000, 0), [.fetchQuery])) ∧
    (∀ (s : String) (a b c : List Char) (p q : ℚ) (st : ℤ),
      splitComma s.data = [a, b, c] → pyFloatChars a = some p →
      pyFloatChars b = some q → pyIntChars c = some st →
      BK894.measure (.ok s) = (.ok (p, q, st), [.fetchQuery])) ∧
    (∀ s : String, (splitComma s.data).length ≠ 3 →
      BK894.measure (.ok s) = (.error .valueError, [.fetchQuery])) := by
  refine ⟨?_, fun s a b c p q st hs ha hb hc => ?_, fun s hs => ?_⟩
  · refine Prod.ext ?_ rfl
    simp +decide [BK894.measure, splitComma, pyFloatChars, pyIntChars,
      takeDigits, natOfDigits] <;> norm_num
  · simp [BK894.measure, hs, ha, hb, hc]
  · rcases hl : splitComma s.data with _ | ⟨a, _ | ⟨b, _ | ⟨c, _ | ⟨d, l⟩⟩⟩⟩ <;>
      simp [BK894.measure, hl] <;> simp [hl] at hs

/-- Witness for `lcr_measure_parse` at the two-field response
`"1.0,2.0"`, which does not split into three fields and is rejected. -/
theorem lcr_measure_parse_witness :
    (splitComma "1.0,2.0".data).length ≠ 3 ∧
    BK894.measure (.ok "1.0,2.0") = (.error .valueError, [.fetchQuery]) :=
  ⟨by decide, lcr_measure_parse.2.2 "1.0,2.0" (by decide)⟩

/-- Length of the unpacked sample list: one sample per byte pair. -/
theorem unpackBE16_length : ∀ l : List ℕ, (unpackBE16 l).length = l.length / 2
  | [] => by simp [unpackBE16]
  | [_] => by simp [unpackBE16]
  | _ :: _ :: rest => by
    simp only [unpackBE16, List.length_cons]
    rw [unpackBE16_length rest]
    omega

/-- Evaluation of the waveform decode on a well-framed raw response:
one leading byte `a`, the digit byte for `n`, then `n` further header
bytes, the payload, and one trailing byte.  The slice
`raw_data[header_len:-1]` is then exactly `payload`, and the decode
succeeds iff the payload byte count is even. -/
theorem get_waveform_framed (p : TekMSO24.Preamble) (a n term : ℕ)
    (rest payload : List ℕ) (hn : rest.length = n) (h9 : n ≤ 9) :
    TekMSO24.get_waveform p (a :: (48 + n) :: (rest ++ payload ++ [term])) =
      if payload.length % 2 = 0 then
        .ok ⟨(List.range (payload.length / 2)).map
              (fun i : ℕ => p.xzero + (i : ℚ) * p.xincr),
            (unpackBE16 payload).map
              (fun s : ℤ => ((s : ℚ) - p.yoff) * p.ymult + p.yzero),
            p.xincr, payload.length / 2⟩
      else .error .structError := by
  have hdrop :
      (a :: (48 + n) :: (rest ++ payload ++ [term])).drop (2 + ((48 + n) - 48)) =
        payload ++ [term] := by
    rw [show (48 + n) - 48 = n by omega, show 2 + n = n + 1 + 1 by omega]
    simp only [List.drop_succ_cons]
    rw [← hn, List.append_assoc, List.drop_left]
  simp only [TekMSO24.get_waveform, List.drop_succ_cons, List.drop_zero]
  rw [if_pos ⟨Nat.le_add_right 48 n, by omega⟩, hdrop, List.dropLast_concat]
  by_cases hev : payload.length % 2 = 0
  · rw [if_pos hev, if_pos hev]
    simp only [List.length_map, unpackBE16_length]
  · rw [if_neg hev, if_neg hev]

/-- Claim C1: with preamble {sample_count 4, x_increment 1e-6, x_zero
0, y_multiplier 0.01, y_offset 0, y_zero 0} and raw response `#18` +
the 8 bytes encoding [100, -100, 0, 32767] big-endian + one terminator
byte, the capture returns voltages [1.0, -1.0, 0.0, 327.67] and times
[0, 1e-6, 2e-6, 3e-6]; and in general, on any well-framed response,
every sample `s` becomes `(s - y_offset) * y_multiplier + y_zero` and
every index `i` becomes `x_zero + i * x_increment`, in wire order. -/
theorem waveform_capture_conversion :
    (TekMSO24.get_waveform ⟨4, 1 / 1000000, 0, 0, 1 / 100, 0, 0⟩
        ([35, 49, 56] ++ [0, 100, 255, 156, 0, 0, 127, 255] ++ [10]) =
      .ok ⟨[0, 1 / 1000000, 2 / 1000000, 3 / 1000000],
        [1, -1, 0, 32767 / 100], 1 / 1000000, 4⟩) ∧
    (∀ (p : TekMSO24.Preamble) (a n term : ℕ) (rest payload : List ℕ),
      rest.length = n → n ≤ 9 → payload.length % 2 = 0 →
      TekMSO24.get_waveform p (a :: (48 + n) :: (rest ++ payload ++ [term])) =
        .ok ⟨(List.range (payload.length / 2)).map
              (fun i : ℕ => p.xzero + (i : ℚ) * p.xincr),
            (unpackBE16 payload).map
              (fun s : ℤ => ((s : ℚ) - p.yoff) * p.ymult + p.yzero),
            p.xincr, payload.length / 2⟩) := by
  constructor
  · norm_num [TekMSO24.get_waveform, unpackBE16, int16OfBytes, List.range_succ]
  · intro p a n term rest payload hn h9 hev
    rw [get_waveform_framed p a n term rest payload hn h9, if_pos hev]

/-- Witness for `waveform_capture_conversion` instantiating its general
part on the claim's own example frame. -/
theorem waveform_capture_conversion_witness :
    ([56] : List ℕ).length = 1 ∧ (1 : ℕ) ≤ 9 ∧
    ([0, 100, 255, 156, 0, 0, 127, 255] : List ℕ).length % 2 = 0 ∧
    TekMSO24.get_waveform ⟨4, 1 / 1000000, 0, 0, 1 / 100, 0, 0⟩
        (35 :: (48 + 1) :: ([56] ++ [0, 100, 255, 156, 0, 0, 127, 255] ++ [10])) =
      .ok ⟨(List.range (([0, 100, 255, 156, 0, 0, 127, 255] : List ℕ).length / 2)).map
            (fun i : ℕ => (0 : ℚ) + (i : ℚ) * (1 / 1000000)),
          (unpackBE16 [0, 100, 255, 156, 0, 0, 127, 255]).map
            (fun s : ℤ => ((s : ℚ) - 0) * (1 / 100) + 0),
          1 / 1000000, ([0, 100, 255, 156, 0, 0, 127, 255] : List ℕ).length / 2⟩ :=
  ⟨rfl, by decide, rfl,
    waveform_capture_conversion.2 ⟨4, 1 / 1000000, 0, 0, 1 / 100, 0, 0⟩
      35 1 10 [56] [0, 100, 255, 156, 0, 0, 127, 255] rfl (by decide) rfl⟩

/-- Claim C2 counterexample: a raw response whose first byte is 88
(`'X'`, not `'#'` = 35), whose declared payload length digit is `'8'`
but which carries only 6 payload bytes, and whose decoded sample count
3 differs from the queried sample count `nr_pt = 4`, is decoded
successfully into a 3-sample waveform instead of failing with
`WaveformDecodeError`. -/
theorem waveform_malformed_header_accepted :
    TekMSO24.get_waveform ⟨4, 1 / 1000000, 0, 0, 1 / 100, 0, 0⟩
        ([88, 49, 56] ++ [0, 100, 255, 156, 0, 0] ++ [10]) =
      .ok ⟨[0, 1 / 1000000, 2 / 1000000], [1, -1, 0], 1 / 1000000, 3⟩ ∧
    (88 : ℕ) ≠ 35 ∧ (3 : ℤ) ≠ 4 := by
  refine ⟨?_, by decide, by decide⟩
  norm_num [TekMSO24.get_waveform, unpackBE16, int16OfBytes, List.range_succ]

/-- Claim C2 as amended: the decoder validates neither the `#` marker,
nor the consistency of the declared length with the actual payload, nor
agreement with the previously queried sample count; it fails only when
byte 1 of the response is not an ASCII digit (Python `ValueError`, not
a dedicated `WaveformDecodeError`) or when the sliced payload has an
odd byte length (Python `struct.error`). -/
theorem waveform_decode_error_conditions :
    (∀ (p : TekMSO24.Preamble) (a b : ℕ) (rest : List ℕ),
      ¬ (48 ≤ b ∧ b ≤ 57) →
      TekMSO24.get_waveform p (a :: b :: rest) = .error .valueError) ∧
    (∀ (p : TekMSO24.Preamble) (a n term : ℕ) (rest payload : List ℕ),
      rest.length = n → n ≤ 9 → payload.length % 2 = 1 →
      TekMSO24.get_waveform p (a :: (48 + n) :: (rest ++ payload ++ [term])) =
        .error .structError) := by
  constructor
  · intro p a b rest hb
    simp only [TekMSO24.get_waveform, List.drop_succ_cons, List.drop_zero]
    rw [if_neg hb]
  · intro p a n term rest payload hn h9 hodd
    rw [get_waveform_framed p a n term rest payload hn h9, if_neg (by omega)]

/-- Witness for `waveform_decode_error_conditions`: byte 65 (`'A'`) as
the length digit raises `ValueError`, and a 3-byte payload raises
`struct.error`. -/
theorem waveform_decode_error_conditions_witness :
    ¬ (48 ≤ (65 : ℕ) ∧ (65 : ℕ) ≤ 57) ∧
    TekMSO24.get_waveform ⟨4, 1 / 1000000, 0, 0, 1 / 100, 0, 0⟩
      [35, 65, 9, 9] = .error .valueError ∧
    ([56] : List ℕ).length = 1 ∧ ([0, 100, 255] : List ℕ).length % 2 = 1 ∧
    TekMSO24.get_waveform ⟨4, 1 / 1000000, 0, 0, 1 / 100, 0, 0⟩
      (35 :: (48 + 1) :: ([56] ++ [0, 100, 255] ++ [10])) =
        .error .structError :=
  ⟨by decide,
   waveform_decode_error_conditions.1 ⟨4, 1 / 1000000, 0, 0, 1 / 100, 0, 0⟩
     35 65 [9, 9] (by decide),
   rfl, rfl,
   waveform_decode_error_conditions.2 ⟨4, 1 / 1000000, 0, 0, 1 / 100, 0, 0⟩
     35 1 10 [56] [0, 100, 255] rfl (by decide) rfl⟩

/-- Codepoint of `Char.ofNat` on ASCII byte values. -/
theorem toNat_charOfNat : ∀ b < 128, (Char.ofNat b).toNat = b := by decide

/-- Stripping only removes characters. -/
theorem pyStrip_subset (cs : List Char) : ∀ c ∈ pyStrip cs, c ∈ cs := by
  intro c hc
  unfold pyStrip at hc
  rw [List.mem_reverse] at hc
  have h1 := (List.dropWhile_sublist
    (l := (cs.dropWhile isPySpace).reverse) (p := isPySpace)).subset hc
  rw [List.mem_reverse] at h1
  exact (List.dropWhile_sublist (l := cs) (p := isPySpace)).subset h1

namespace USBTMC

/-- Unfolding of `readAux` on an exhausted trace. -/
theorem readAux_nil (endTime now : ℚ) (data : List ℕ) :
    readAux endTime [] now data =
      if now < endTime then none
      else some (if data.isEmpty then (.error .timeoutError, now)
                 else (.ok data, now)) := rfl

/-- Unfolding of `readAux` on a chunk event. -/
theorem readAux_cons_chunk (endTime d now : ℚ) (c : List ℕ)
    (rest : List (ReadEv × ℚ)) (data : List ℕ) :
    readAux endTime ((ReadEv.chunk c, d) :: rest) now data =
      if now < endTime then
        if c.isEmpty then readAux endTime rest (now + d + pollInterval) data
        else if (10 : ℕ) ∈ c then some (.ok (data ++ c), now + d)
        else readAux endTime rest (now + d + pollInterval) (data ++ c)
      else some (if data.isEmpty then (.error .timeoutError, now)
                 else (.ok data, now)) := rfl

/-- Unfolding of `readAux` on an `EAGAIN` event. -/
theorem readAux_cons_eagain (endTime d now : ℚ)
    (rest : List (ReadEv × ℚ)) (data : List ℕ) :
    readAux endTime ((ReadEv.eagain, d) :: rest) now data =
      if now < endTime then readAux endTime rest (now + d + pollInterval) data
      else some (if data.isEmpty then (.error .timeoutError, now)
                 else (.ok data, now)) := rfl

/-- Unfolding of `readAux` on a failing read. -/
theorem readAux_cons_fail (endTime d now : ℚ)
    (rest : List (ReadEv × ℚ)) (data : List ℕ) :
    readAux endTime ((ReadEv.fail, d) :: rest) now data =
      if now < endTime then some (.error .osError, now + d)
      else some (if data.isEmpty then (.error .timeoutError, now)
                 else (.ok data, now)) := rfl

/-- When every chunk delivered before the deadline is empty (and no
read fails), the loop ends in the `TimeoutError` raise: its buffer
stays empty. -/
theorem readAux_empty_chunks (endTime : ℚ) :
    ∀ (trace : List (ReadEv × ℚ)) (now : ℚ)
      (res : Except PyErr (List ℕ)) (t : ℚ),
      (∀ e ∈ trace, e.1 ≠ ReadEv.fail) →
      (∀ e ∈ trace, ∀ bs, e.1 = ReadEv.chunk bs → bs = []) →
      readAux endTime trace now [] = some (res, t) →
      res = .error .timeoutError := by
  intro trace
  induction trace with
  | nil =>
    intro now res t _ _ heq
    rw [readAux_nil] at heq
    by_cases h : now < endTime
    · rw [if_pos h] at heq; cases heq
    · rw [if_neg h, if_pos List.isEmpty_nil] at heq
      cases heq; rfl
  | cons e rest ih =>
    intro now res t hnf hch heq
    obtain ⟨ev, d⟩ := e
    have hnf' : ∀ x ∈ rest, x.1 ≠ ReadEv.fail :=
      fun x hx => hnf x (List.mem_cons_of_mem _ hx)
    have hch' : ∀ x ∈ rest, ∀ bs, x.1 = ReadEv.chunk bs → bs = [] :=
      fun x hx => hch x (List.mem_cons_of_mem _ hx)
    cases ev with
    | chunk c =>
      rw [readAux_cons_chunk] at heq
      have hc : c = [] := hch _ (List.mem_cons_self _ _) c rfl
      subst hc
      by_cases h : now < endTime
      · rw [if_pos h, if_pos List.isEmpty_nil] at heq
        exact ih _ _ _ hnf' hch' heq
      · rw [if_neg h, if_pos List.isEmpty_nil] at heq
        cases heq; rfl
    | eagain =>
      rw [readAux_cons_eagain] at heq
      by_cases h : now < endTime
      · rw [if_pos h] at heq
        exact ih _ _ _ hnf' hch' heq
      · rw [if_neg h, if_pos List.isEmpty_nil] at heq
        cases heq; rfl
    | fail => exact absurd rfl (hnf _ (List.mem_cons_self _ _))

/-- When no chunk delivered before the deadline contains the newline
terminator (and all bytes are ASCII, and no read fails), the loop ends
either in the `TimeoutError` raise or with a terminator-free, all-ASCII
buffer. -/
theorem readAux_no_terminator (endTime : ℚ) :
    ∀ (trace : List (ReadEv × ℚ)) (now : ℚ) (data : List ℕ)
      (res : Except PyErr (List ℕ)) (t : ℚ),
      (∀ e ∈ trace, e.1 ≠ ReadEv.fail) →
      (∀ e ∈ trace, ∀ bs, e.1 = ReadEv.chunk bs →
        (10 : ℕ) ∉ bs ∧ ∀ b ∈ bs, b < 128) →
      (10 : ℕ) ∉ data → (∀ b ∈ data, b < 128) →
      readAux endTime trace now data = some (res, t) →
      res = .error .timeoutError ∨
        ∃ bs, res = .ok bs ∧ (10 : ℕ) ∉ bs ∧ ∀ b ∈ bs, b < 128 := by
  intro trace
  induction trace with
  | nil =>
    intro now data res t _ _ hd hdb heq
    rw [readAux_nil] at heq
    by_cases h : now < endTime
    · rw [if_pos h] at heq; cases heq
    · rw [if_neg h] at heq
      by_cases hde : data.isEmpty
      · rw [if_pos hde] at heq
        cases heq
        exact Or.inl rfl
      · rw [if_neg hde] at heq
        cases heq
        exact Or.inr ⟨data, rfl, hd, hdb⟩
  | cons e rest ih =>
    intro now data res t hnf hch hd hdb heq
    obtain ⟨ev, d⟩ := e
    have hnf' : ∀ x ∈ rest, x.1 ≠ ReadEv.fail :=
      fun x hx => hnf x (List.mem_cons_of_mem _ hx)
    have hch' : ∀ x ∈ rest, ∀ bs, x.1 = ReadEv.chunk bs →
        (10 : ℕ) ∉ bs ∧ ∀ b ∈ bs, b < 128 :=
      fun x hx => hch x (List.mem_cons_of_mem _ hx)
    cases ev with
    | chunk c =>
      rw [readAux_cons_chunk] at heq
      obtain ⟨hc10, hcb⟩ := hch _ (List.mem_cons_self _ _) c rfl
      by_cases h : now < endTime
      · rw [if_pos h] at heq
        by_cases hce : c.isEmpty
        · rw [if_pos hce] at heq
          exact ih _ _ _ _ hnf' hch' hd hdb heq
        · rw [if_neg hce, if_neg hc10] at heq
          have hd' : (10 : ℕ) ∉ data ++ c := by
            intro hmem
            rcases List.mem_append.mp hmem with h1 | h1
            · exact hd h1
            · exact hc10 h1
          have hdb' : ∀ b ∈ data ++ c, b < 128 := by
            intro b hb
            rcases List.mem_append.mp hb with h1 | h1
            · exact hdb b h1
            · exact hcb b h1
          exact ih _ _ _ _ hnf' hch' hd' hdb' heq
      · rw [if_neg h] at heq
        by_cases hde : data.isEmpty
        · rw [if_pos hde] at heq
          cases heq
          exact Or.inl rfl
        · rw [if_neg hde] at heq
          cases heq
          exact Or.inr ⟨data, rfl, hd, hdb⟩
    | eagain =>
      rw [readAux_cons_eagain] at heq
      by_cases h : now < endTime
      · rw [if_pos h] at heq
        exact ih _ _ _ _ hnf' hch' hd hdb heq
      · rw [if_neg h] at heq
        by_cases hde : data.isEmpty
        · rw [if_pos hde] at heq
          cases heq
          exact Or.inl rfl
        · rw [if_neg hde] at heq
          cases heq
          exact Or.inr ⟨data, rfl, hd, hdb⟩
    | fail => exact absurd rfl (hnf _ (List.mem_cons_self _ _))

/-- The loop of `read` cannot end later than the deadline plus one
maximal read duration plus one poll interval: no iteration starts once
`time.time() < end_time` fails. -/
theorem readAux_le (endTime D : ℚ) :
    ∀ (trace : List (ReadEv × ℚ)) (now : ℚ) (data : List ℕ)
      (res : Except PyErr (List ℕ)) (t : ℚ),
      (∀ e ∈ trace, e.2 ≤ D) →
      now ≤ endTime + D + pollInterval →
      readAux endTime trace now data = some (res, t) →
      t ≤ endTime + D + pollInterval := by
  have hpoll : (0 : ℚ) < pollInterval := by norm_num [pollInterval]
  intro trace
  induction trace with
  | nil =>
    intro now data res t _ hb heq
    rw [readAux_nil] at heq
    by_cases h : now < endTime
    · rw [if_pos h] at heq; cases heq
    · rw [if_neg h] at heq
      by_cases hde : data.isEmpty
      · rw [if_pos hde] at heq; cases heq; exact hb
      · rw [if_neg hde] at heq; cases heq; exact hb
  | cons e rest ih =>
    intro now data res t hd hb heq
    obtain ⟨ev, d⟩ := e
    have hdD : d ≤ D := hd _ (List.mem_cons_self _ _)
    have hd' : ∀ x ∈ rest, x.2 ≤ D :=
      fun x hx => hd x (List.mem_cons_of_mem _ hx)
    cases ev with
    | chunk c =>
      rw [readAux_cons_chunk] at heq
      by_cases h : now < endTime
      · rw [if_pos h] at heq
        by_cases hce : c.isEmpty
        · rw [if_pos hce] at heq
          exact ih _ _ _ _ hd' (by linarith) heq
        · by_cases hc10 : (10 : ℕ) ∈ c
          · rw [if_neg hce, if_pos hc10] at heq
            cases heq; linarith
          · rw [if_neg hce, if_neg hc10] at heq
            exact ih _ _ _ _ hd' (by linarith) heq
      · rw [if_neg h] at heq
        by_cases hde : data.isEmpty
        · rw [if_pos hde] at heq; cases heq; exact hb
        · rw [if_neg hde] at heq; cases heq; exact hb
    | eagain =>
      rw [readAux_cons_eagain] at heq
      by_cases h : now < endTime
      · rw [if_pos h] at heq
        exact ih _ _ _ _ hd' (by linarith) heq
      · rw [if_neg h] at heq
        by_cases hde : data.isEmpty
        · rw [if_pos hde] at heq; cases heq; exact hb
        · rw [if_neg hde] at heq; cases heq; exact hb
    | fail =>
      rw [readAux_cons_fail] at heq
      by_cases h : now < endTime
      · rw [if_pos h] at heq; cases heq; linarith
      · rw [if_neg h] at heq
        by_cases hde : data.isEmpty
        · rw [if_pos hde] at heq; cases heq; exact hb
        · rw [if_neg hde] at heq; cases heq; exact hb

/-- Unfolding of `readRawAux` on an exhausted trace. -/
theorem readRawAux_nil (endTime now : ℚ) :
    readRawAux endTime [] now =
      if now < endTime then none
      else some (.error .timeoutError, now) := rfl

/-- Unfolding of `readRawAux` on a chunk event. -/
theorem readRawAux_cons_chunk (endTime d now : ℚ) (c : List ℕ)
    (rest : List (ReadEv × ℚ)) :
    readRawAux endTime ((ReadEv.chunk c, d) :: rest) now =
      if now < endTime then
        if c.isEmpty then readRawAux endTime rest (now + d + pollInterval)
        else some (.ok c, now + d)
      else some (.error .timeoutError, now) := rfl

/-- Unfolding of `readRawAux` on an `EAGAIN` event. -/
theorem readRawAux_cons_eagain (endTime d now : ℚ)
    (rest : List (ReadEv × ℚ)) :
    readRawAux endTime ((ReadEv.eagain, d) :: rest) now =
      if now < endTime then readRawAux endTime rest (now + d + pollInterval)
      else some (.error .timeoutError, now) := rfl

/-- Unfolding of `readRawAux` on a failing read. -/
theorem readRawAux_cons_fail (endTime d now : ℚ)
    (rest : List (ReadEv × ℚ)) :
    readRawAux endTime ((ReadEv.fail, d) :: rest) now =
      if now < endTime then some (.error .osError, now + d)
      else some (.error .timeoutError, now) := rfl

/-- Same completion-time bound for the `read_raw` loop. -/
theorem readRawAux_le (endTime D : ℚ) :
    ∀ (trace : List (ReadEv × ℚ)) (now : ℚ)
      (res : Except PyErr (List ℕ)) (t : ℚ),
      (∀ e ∈ trace, e.2 ≤ D) →
      now ≤ endTime + D + pollInterval →
      readRawAux endTime trace now = some (res, t) →
      t ≤ endTime + D + pollInterval := by
  have hpoll : (0 : ℚ) < pollInterval := by norm_num [pollInterval]
  intro trace
  induction trace with
  | nil =>
    intro now res t _ hb heq
    rw [readRawAux_nil] at heq
    by_cases h : now < endTime
    · rw [if_pos h] at heq; cases heq
    · rw [if_neg h] at heq; cases heq; exact hb
  | cons e rest ih =>
    intro now res t hd hb heq
    obtain ⟨ev, d⟩ := e
    have hdD : d ≤ D := hd _ (List.mem_cons_self _ _)
    have hd' : ∀ x ∈ rest, x.2 ≤ D :=
      fun x hx => hd x (List.mem_cons_of_mem _ hx)
    cases ev with
    | chunk c =>
      rw [readRawAux_cons_chunk] at heq
      by_cases h : now < endTime
      · rw [if_pos h] at heq
        by_cases hce : c.isEmpty
        · rw [if_pos hce] at heq
          exact ih _ _ _ hd' (by linarith) heq
        · rw [if_neg hce] at heq
          cases heq; linarith
      · rw [if_neg h] at heq; cases heq; exact hb
    | eagain =>
      rw [readRawAux_cons_eagain] at heq
      by_cases h : now < endTime
      · rw [if_pos h] at heq
        exact ih _ _ _ hd' (by linarith) heq
      · rw [if_neg h] at heq; cases heq; exact hb
    | fail =>
      rw [readRawAux_cons_fail] at heq
      by_cases h : now < endTime
      · rw [if_pos h] at heq; cases heq; linarith
      · rw [if_neg h] at heq; cases heq; exact hb

end USBTMC

/-- Claim C4 counterexample: a single chunk `b"abc"` (no terminator
anywhere, all reads thereafter would-block until the deadline) makes
`read` return the accumulated text `"abc"` — which contains no
terminator — instead of failing with `ReadTimeout`. -/
theorem read_returns_unterminated_data :
    USBTMC.read (1 / 100) [(.chunk [97, 98, 99], 0)] =
      some (.ok ['a', 'b', 'c'], 1 / 100) ∧
    (∀ c ∈ (['a', 'b', 'c'] : List Char), c.toNat ≠ 10) ∧
    (Except.ok ['a', 'b', 'c'] : Except PyErr (List Char)) ≠
      .error .timeoutError := by
  refine ⟨?_, by decide, by decide⟩
  norm_num [USBTMC.read, USBTMC.readAux, pollInterval, pyDecodeAscii,
    pyStrip, isPySpace, Except.bind, Except.map] <;> decide

/-- Claim C4 as amended: when no terminator byte arrives before the
deadline (and no read raises a non-EAGAIN error), `read` fails with
`ReadTimeout` if every delivered chunk was empty; if bytes were
received it instead returns the accumulated, stripped text, which
contains no terminator. -/
theorem read_no_terminator_outcome (timeout : ℚ) (trace : List (ReadEv × ℚ))
    (hnf : ∀ e ∈ trace, e.1 ≠ ReadEv.fail) :
    ((∀ e ∈ trace, ∀ bs, e.1 = ReadEv.chunk bs → bs = []) →
      ∀ res t, USBTMC.read timeout trace = some (res, t) →
        res = .error .timeoutError) ∧
    ((∀ e ∈ trace, ∀ bs, e.1 = ReadEv.chunk bs →
        (10 : ℕ) ∉ bs ∧ ∀ b ∈ bs, b < 128) →
      ∀ res t, USBTMC.read timeout trace = some (res, t) →
        res = .error .timeoutError ∨
          ∃ cs, res = .ok cs ∧ ∀ c ∈ cs, c.toNat ≠ 10) := by
  constructor
  · intro hch res t heq
    rw [USBTMC.read, Option.map_eq_some'] at heq
    obtain ⟨⟨r0, t0⟩, h0, hmap⟩ := heq
    have hr0 := USBTMC.readAux_empty_chunks timeout trace 0 r0 t0 hnf hch h0
    subst hr0
    cases hmap
    rfl
  · intro hch res t heq
    rw [USBTMC.read, Option.map_eq_some'] at heq
    obtain ⟨⟨r0, t0⟩, h0, hmap⟩ := heq
    rcases USBTMC.readAux_no_terminator timeout trace 0 [] r0 t0 hnf hch
        (by simp) (by simp) h0 with hr0 | ⟨bs, hr0, h10, hb⟩
    · subst hr0
      cases hmap
      exact Or.inl rfl
    · subst hr0
      cases hmap
      refine Or.inr ⟨pyStrip (bs.map Char.ofNat), ?_, ?_⟩
      · have hall : bs.all (fun b => b < 128) = true := by
          rw [List.all_eq_true]
          intro b hbmem
          exact decide_eq_true (hb b hbmem)
        simp [pyDecodeAscii, hall, Except.bind, Except.map]
      · intro ch hch2
        have hmem := pyStrip_subset _ ch hch2
        obtain ⟨b, hbmem, rfl⟩ := List.mem_map.mp hmem
        rw [toNat_charOfNat b (hb b hbmem)]
        intro hb10
        exact h10 (hb10 ▸ hbmem)

/-- Witness for `read_no_terminator_outcome` on the trace of the
counterexample above: the second alternative (accumulated
terminator-free text) is realised. -/
theorem read_no_terminator_outcome_witness :
    (Except.ok ['a', 'b', 'c'] : Except PyErr (List Char)) =
        .error .timeoutError ∨
      ∃ cs, (Except.ok ['a', 'b', 'c'] : Except PyErr (List Char)) = .ok cs ∧
        ∀ c ∈ cs, c.toNat ≠ 10 :=
  (read_no_terminator_outcome (1 / 100) [(.chunk [97, 98, 99], 0)]
      (by decide)).2
    (by
      intro e he bs hbs
      rw [List.mem_singleton] at he
      subst he
      cases hbs
      exact ⟨by decide, by decide⟩)
    (.ok ['a', 'b', 'c']) (1 / 100)
    (by norm_num [USBTMC.read, USBTMC.readAux, pollInterval, pyDecodeAscii,
      pyStrip, isPySpace, Except.bind, Except.map] <;> decide)

/-- Claim C9 counterexample: a single blocking `os.read` that takes 5
seconds to deliver its (terminated) chunk makes `read` return at
wall-clock time 5, after a configured timeout of only 2 seconds — the
deadline bounds only the start of each read attempt, not the attempt
itself. -/
theorem read_exceeds_timeout :
    USBTMC.read 2 [(.chunk [10], 5)] = some (.ok [], 5) ∧ (2 : ℚ) < 5 := by
  constructor
  · norm_num [USBTMC.read, USBTMC.readAux, pollInterval, pyDecodeAscii,
      pyStrip, isPySpace, Except.bind, Except.map] <;> decide
  · norm_num

/-- Claim C9 as amended: `read` and `read_raw` never start a poll
iteration after the deadline; whenever they return or raise, the
completion time is bounded by the timeout plus the duration of the
longest single read attempt plus one 10 ms poll interval.  (A single
blocking read may therefore still push completion past the raw
timeout, as the counterexample shows.) -/
theorem read_time_bound (timeout D : ℚ) (trace : List (ReadEv × ℚ))
    (hT : 0 ≤ timeout) (hD : 0 ≤ D) (hd : ∀ e ∈ trace, e.2 ≤ D) :
    (∀ res t, USBTMC.read timeout trace = some (res, t) →
      t ≤ timeout + D + pollInterval) ∧
    (∀ res t, USBTMC.read_raw timeout trace = some (res, t) →
      t ≤ timeout + D + pollInterval) := by
  have hpoll : (0 : ℚ) < pollInterval := by norm_num [pollInterval]
  constructor
  · intro res t heq
    rw [USBTMC.read, Option.map_eq_some'] at heq
    obtain ⟨⟨r0, t0⟩, h0, hmap⟩ := heq
    have ht0 := USBTMC.readAux_le timeout D trace 0 [] r0 t0 hd
      (by linarith) h0
    have : t = t0 := by cases hmap; rfl
    exact this ▸ ht0
  · intro res t heq
    exact USBTMC.readRawAux_le timeout D trace 0 res t hd (by linarith) heq

/-- Witness for `read_time_bound` on the blocking-read trace: the
completion time 5 satisfies the amended bound 2 + 5 + 0.01. -/
theorem read_time_bound_witness : (5 : ℚ) ≤ 2 + 5 + pollInterval :=
  (read_time_bound 2 5 [(.chunk [10], 5)] (by norm_num) (by norm_num)
      (by
        intro e he
        rw [List.mem_singleton] at he
        subst he
        norm_num)).1
    (.ok []) 5
    (by norm_num [USBTMC.read, USBTMC.readAux, pollInterval, pyDecodeAscii,
      pyStrip, isPySpace, Except.bind, Except.map] <;> decide)

/-- Claim C10 counterexample: the value-query response `"nan"` parses
successfully via `float()` to NaN, and `abs(nan) > 1e30` is false, so
the scalar measurement returns NaN — a value that is neither absent
nor a real number of magnitude at most 1e30. -/
theorem measure_returns_nan :
    (TekMSO24.measureFull "FREQ" 1 (.ok "nan")).1 = .ok (some .nan) ∧
    (some PyFloat.nan ≠ (none : Option PyFloat)) ∧
    ∀ q : ℚ, PyFloat.nan ≠ PyFloat.finite q :=
  ⟨by decide, by decide, fun _ h => PyFloat.noConfusion h⟩

/-- Claim C10 as amended: the oscilloscope scalar measurement never
raises for any shape of the value-query response — every response
string yields `ok` — and the payload is either absent, or NaN (for a
response such as `"nan"`, which defeats the `abs(val) > 1e30`
sentinel test), or a real number of magnitude at most 1e30. -/
theorem measure_full_outcomes (mt : String) (ch : ℤ) (s : String) :
    ∃ r : Option PyFloat, (TekMSO24.measureFull mt ch (.ok s)).1 = .ok r ∧
      (r = none ∨ r = some PyFloat.nan ∨
        ∃ q : ℚ, r = some (PyFloat.finite q) ∧ |q| ≤ (10 : ℚ) ^ 30) := by
  refine ⟨TekMSO24.parseValueFull s, rfl, ?_⟩
  unfold TekMSO24.parseValueFull
  cases hp : pyFloatFull s.data with
  | none => exact Or.inl rfl
  | some val =>
    cases val with
    | nan => exact Or.inr (Or.inl (by simp [absGtSentinel]))
    | inf neg => exact Or.inl (by simp [absGtSentinel])
    | finite q =>
      by_cases hq : (10 : ℚ) ^ 30 < |q|
      · exact Or.inl (by simp [absGtSentinel, hq])
      · exact Or.inr (Or.inr ⟨q, by simp [absGtSentinel, hq], le_of_not_lt hq⟩)
